import Mathlib

/-!
Shallow embedding of `StemSCAPE-SI.py`: a single-pass pipeline that loads two
tab-separated tables, label-encodes categorical columns, fits a random-forest
classifier, computes SHAP attributions for every sample and writes three
output tables.  The pandas/sklearn/shap data-shaping logic of the script is
translated into executable Lean definitions; the external library calls
(`RandomForestClassifier.fit` / `predict_proba`, `shap.TreeExplainer`) are
modelled as opaque function-valued parameters, exactly as the specification
treats them (black-box input/output contracts).  Floating-point values are
embedded as rationals.
-/

instance {ε α : Type} [DecidableEq ε] [DecidableEq α] :
    DecidableEq (Except ε α) := fun x y =>
  match x, y with
  | .ok a, .ok b => if h : a = b then isTrue (by rw [h]) else isFalse (by simp [h])
  | .error a, .error b =>
    if h : a = b then isTrue (by rw [h]) else isFalse (by simp [h])
  | .ok _, .error _ => isFalse (by simp)
  | .error _, .ok _ => isFalse (by simp)

/-- Lexicographic comparison of character lists by Unicode code point,
the order Python string comparison and numpy sorting use. -/
def lexLe : List Char → List Char → Bool
  | [], _ => true
  | _ :: _, [] => false
  | c :: cs, d :: ds => if c = d then lexLe cs ds else decide (c.toNat < d.toNat)

/-- String order used by `np.unique` / `LabelEncoder` when sorting class values. -/
def strLe (a b : String) : Prop := lexLe a.data b.data = true

instance : DecidableRel strLe := fun _ _ => inferInstanceAs (Decidable (_ = true))

/-- A pandas column: numeric dtype, or non-numeric (object/string) dtype. -/
inductive Col where
  | numCol (vals : List Rat)
  | strCol (vals : List String)
deriving DecidableEq

/-- Number of entries of a column. -/
def Col.length : Col → Nat
  | .numCol vs => vs.length
  | .strCol vs => vs.length

/-- `series.astype(str)`: the stringified values of a column. -/
def Col.asStrings : Col → List String
  | .numCol vs => vs.map (fun q => toString q)
  | .strCol vs => vs

/-- Whether a column already has numeric dtype. -/
def Col.isNum : Col → Bool
  | .numCol _ => true
  | .strCol _ => false

/-- A pandas DataFrame: named columns in order (all of equal length in any
well-formed frame). -/
structure DataFrame where
  cols : List (String × Col)
deriving DecidableEq

/-- `df.columns`. -/
def DataFrame.columns (df : DataFrame) : List String := df.cols.map Prod.fst

/-- `df[n]`: the column named `n`, if present. -/
def DataFrame.getCol (df : DataFrame) (n : String) : Option Col :=
  (df.cols.find? (fun p => p.1 == n)).map Prod.snd

/-- `df.drop(columns=ns)` (on the paths the script reaches, every dropped
name is present): remaining columns keep their order. -/
def DataFrame.drop (df : DataFrame) (ns : List String) : DataFrame :=
  ⟨df.cols.filter (fun p => !(ns.contains p.1))⟩

/-- `len(df)`: the number of rows. -/
def DataFrame.nrows (df : DataFrame) : Nat :=
  match df.cols with
  | [] => 0
  | p :: _ => p.2.length

/-- Whether every column of the frame has numeric dtype. -/
def DataFrame.allNumericB (df : DataFrame) : Bool := df.cols.all (fun p => p.2.isNum)

/-- `np.unique`: the sorted list of the distinct values; `LabelEncoder.fit`
stores this as `classes_`. -/
def npUnique (l : List String) : List String :=
  List.insertionSort strLe l.dedup

/-- `sklearn.preprocessing.LabelEncoder`: its only state is the fitted
`classes_` list (empty before fitting). -/
structure LabelEncoder where
  classes : List String
deriving DecidableEq

/-- `LabelEncoder.fit(y)`: classes_ := sorted distinct values of `y`. -/
def LabelEncoder.fit (y : List String) : LabelEncoder := ⟨npUnique y⟩

/-- sklearn's error when `transform` meets a value absent from `classes_`. -/
def unseenLabelsMsg : String := "y contains previously unseen labels"

/-- `LabelEncoder.transform(y)`: the code of each value is its index in the
fitted sorted `classes_` list; a value not seen during fitting raises. -/
def LabelEncoder.transform (le : LabelEncoder) (y : List String) :
    Except String (List Nat) :=
  if y.all (fun v => le.classes.contains v) then
    .ok (y.map (fun v => le.classes.indexOf v))
  else .error unseenLabelsMsg

/-- `LabelEncoder().fit_transform(y)` applied to a fresh encoder: each value
is coded by its index in the sorted distinct values of `y` itself. -/
def labelFitTransform (y : List String) : List Nat :=
  y.map (fun v => (npUnique y).indexOf v)

/-- One column of `encode_non_numeric` (source lines 31-34): a non-numeric
column is replaced by `LabelEncoder().fit_transform(X[col].astype(str))`,
fit fresh on that column's own values; a numeric column is untouched. -/
def encodeCol : Col → Col
  | .numCol vs => .numCol vs
  | .strCol vs => .numCol ((labelFitTransform vs).map (fun k => (k : Rat)))

/-- `encode_non_numeric(X)` (source lines 26-35): label-encode every
non-numeric column of `X`, each independently.  This is the value the
function returns (which in the source is the argument object itself,
updated in place). -/
def encode_non_numeric (X : DataFrame) : DataFrame :=
  ⟨X.cols.map (fun p => (p.1, encodeCol p.2))⟩

/-- The state of the DataFrame object that was passed to
`encode_non_numeric` after the call returns.  The source's loop executes
`X[col] = le.fit_transform(...)` which assigns into the caller's frame in
place, so on return the argument holds the encoded columns. -/
def encode_non_numeric_arg_after (X : DataFrame) : DataFrame := encode_non_numeric X

/-- The `ValueError` message of source line 53, raised when the training
table lacks the declared label column. -/
def trainMissingLabelMsg (name label : String) : String :=
  "Training file (\x27" ++ name ++ "\x27) missing required label column \x27" ++
    label ++ "\x27"

/-- pandas `KeyError` raised when a named column is absent. -/
def keyErrorMsg (c : String) : String := "KeyError: " ++ c

/-- Source line 47: sample identifiers are the stringified sample column if
one is named, else `sample_<row index>` synthesized in row order. -/
def sampleIds (df : DataFrame) (sample_col : Option String) :
    Except String (List String) :=
  match sample_col with
  | some s =>
    match df.getCol s with
    | some c => .ok c.asStrings
    | none => .error (keyErrorMsg s)
  | none => .ok ((List.range df.nrows).map (fun i => "sample_" ++ toString i))

/-- `process_data` (source lines 37-69): extract ids, check/encode the label
column, split off the feature matrix and encode its non-numeric columns.
Returns `(ids, X, y_enc?, le_y)` threading the label encoder's state, since
`fit_transform` refits the caller's encoder in place. -/
def process_data (df : DataFrame) (name : String) (label_col : String)
    (sample_col : Option String) (le_y : LabelEncoder) (is_train : Bool) :
    Except String (List String × DataFrame × Option (List Nat) × LabelEncoder) :=
  match sampleIds df sample_col with
  | .error e => .error e
  | .ok ids =>
    let has_label := df.columns.contains label_col
    if is_train && !has_label then
      .error (trainMissingLabelMsg name label_col)
    else if has_label then
      match df.getCol label_col with
      | none => .error (keyErrorMsg label_col)
      | some ycol =>
        let X0 := df.drop ([label_col] ++ sample_col.toList)
        let y := ycol.asStrings
        if is_train then
          .ok (ids, encode_non_numeric X0, some (labelFitTransform y),
               LabelEncoder.fit y)
        else
          match le_y.transform y with
          | .ok codes => .ok (ids, encode_non_numeric X0, some codes, le_y)
          | .error e => .error e
    else
      .ok (ids, encode_non_numeric (df.drop sample_col.toList), none, le_y)

/-- 2-dimensional numeric array (samples × features). -/
abbrev Arr2 : Type := List (List Rat)

/-- The fitted `RandomForestClassifier`, kept opaque: only the two queries
the script makes of it are modelled — `predict_proba(X)[:, 1]` and
`feature_importances_`. -/
structure Model where
  predictProbaPos : DataFrame → List Rat
  featureImportances : List Rat

/-- The three shapes `explainer.shap_values(X)` may take, per the branching
of source lines 82-88: a per-class list of 2-d arrays, a 3-d array
(samples × features × classes), or a plain 2-d array. -/
inductive ShapResult where
  | perClass (l : List Arr2)
  | cube (t : List (List (List Rat)))
  | flat (m : Arr2)

/-- `shap.TreeExplainer(model)`, kept opaque: only `shap_values` and
`expected_value` are modelled (the latter as the nonempty per-class list
the wrapped `np.array(explainer.expected_value)` holds). -/
structure Explainer where
  shapValues : DataFrame → ShapResult
  expectedValue : List Rat

/-- `cells[.., 1]` for one sample of a 3-d array: index 1 of every
per-(sample, feature) class vector; fails when a vector is too short,
as numpy indexing would. -/
def cellsAt1 : List (List Rat) → Option (List Rat)
  | [] => some []
  | c :: cs =>
    match c.get? 1, cellsAt1 cs with
    | some x, some xs => some (x :: xs)
    | _, _ => none

/-- `shap_values[:, :, 1]`: the class-1 slice of a 3-d array. -/
def cubeSlice1 : List (List (List Rat)) → Option Arr2
  | [] => some []
  | r :: rs =>
    match cellsAt1 r, cubeSlice1 rs with
    | some mr, some mrs => some (mr :: mrs)
    | _, _ => none

/-- Source lines 82-88: select the positive-class attribution slice.  A list
with more than one per-class array yields its index-1 element; a 3-d array
yields its class-1 slice; a plain 2-d array is used as-is.  (In the residual
source branch — a list of at most one array — `shap_array` stays a list and
the `pd.DataFrame` construction below fails; modelled as `none`.) -/
def shapArraySlice : ShapResult → Option Arr2
  | .perClass l => if 1 < l.length then l.get? 1 else none
  | .cube t => cubeSlice1 t
  | .flat m => some m

/-- Source line 143: `baseline_array[1]` when more than one expected value
exists, else `baseline_array[0]` (the sole value). -/
def selectBaseline (bs : List Rat) : Option Rat :=
  if 1 < bs.length then bs.get? 1 else bs.get? 0

/-- One row of a per-sample SHAP output table. -/
structure OutRow where
  sampleID : String
  baseline : Rat
  si : Rat
  attrs : List Rat
deriving DecidableEq

/-- A written per-sample SHAP table: header then rows. -/
structure OutTable where
  header : List String
  rows : List OutRow
deriving DecidableEq

/-- The three fixed leading columns inserted at positions 0, 1, 2
(source lines 92-94). -/
def fixedHeaderCols : List String := ["SampleID", "baseline_value", "StemSCAPE-SI"]

/-- Rows of the output frame: the id, the shared baseline scalar, the
predicted positive-class probability and the attribution row of each
sample, aligned positionally. -/
def buildRows (ids : List String) (si : List Rat) (b : Rat) (arr : Arr2) :
    List OutRow :=
  ((ids.zip si).zip arr).map (fun p => ⟨p.1.1, b, p.1.2, p.2⟩)

/-- `output_shap_results` (source lines 71-100): compute the SHAP values and
`predict_proba(X)[:, 1]`, select the positive-class slice, and lay out the
output table; returns the table together with the selected slice (the
Python return value used later for the mean-abs aggregate). -/
def output_shap_results (ids : List String) (X : DataFrame) (model : Model)
    (explainer : Explainer) (baseline_class1 : Rat) :
    Option (OutTable × Arr2) :=
  let sv := explainer.shapValues X
  let si := model.predictProbaPos X
  match shapArraySlice sv with
  | none => none
  | some arr =>
    some (⟨fixedHeaderCols ++ X.columns, buildRows ids si baseline_class1 arr⟩, arr)

/-- One row of `feature_importance_vs_shap.tsv`. -/
structure FeatRow where
  feature : String
  rfImportance : Rat
  meanAbsShap : Rat
deriving DecidableEq

/-- The feature-importance frame before sorting: one row per training
feature, positionally pairing `X_train.columns`, `feature_importances_`
and the mean-abs SHAP vector (source lines 133-136 and 157). -/
def zipFeatRows (cols : List String) (imps mas : List Rat) : List FeatRow :=
  ((cols.zip imps).zip mas).map (fun p => ⟨p.1.1, p.1.2, p.2⟩)

/-- `np.mean(np.abs(arr), axis=0)` (source line 156): for each feature
index, the mean of the absolute attribution values over all samples. -/
def meanAbsPerFeature : Arr2 → List Rat
  | [] => []
  | r0 :: rest =>
    (List.range r0.length).map
      (fun j => ((r0 :: rest).map (fun r => |r.getD j 0|)).sum /
        (((r0 :: rest).length : Nat) : Rat))

/-- `sort_values('RF_FeatureImportance', ascending=False)`: the descending
order on rows used at source line 160. -/
def featGE (a b : FeatRow) : Prop := b.rfImportance ≤ a.rfImportance

instance : DecidableRel featGE :=
  fun a b => inferInstanceAs (Decidable (b.rfImportance ≤ a.rfImportance))

instance : IsTotal FeatRow featGE :=
  ⟨fun a b => le_total b.rfImportance a.rfImportance⟩

instance : IsTrans FeatRow featGE :=
  ⟨fun _ _ _ h1 h2 => le_trans h2 h1⟩

/-- A file written into the output directory. -/
inductive OutFile where
  | shapFile (fname : String) (t : OutTable)
  | featFile (fname : String) (rows : List FeatRow)
deriving DecidableEq

/-- The two library constructors the script calls, kept opaque. -/
structure RunLibs where
  fitModel : DataFrame → List Nat → Model
  treeExplainer : Model → Explainer

/-- `main` (source lines 103-164) after argument parsing: the two
`process_data` calls, model fitting, explainer construction, baseline
selection, the two per-sample reports and the aggregate report.  Returns
the ordered list of files written before termination, and the error that
aborted the run, if any. -/
def mainRun (libs : RunLibs) (trainDf : DataFrame) (trainName : String)
    (testDf : DataFrame) (testName : String)
    (label : String) (sample : Option String) : List OutFile × Option String :=
  match process_data trainDf trainName label sample ⟨[]⟩ true with
  | .error e => ([], some e)
  | .ok (train_ids, X_train, y_train_enc, le1) =>
    match process_data testDf testName label sample le1 false with
    | .error e => ([], some e)
    | .ok (test_ids, X_test, _yte, _le2) =>
      let model := libs.fitModel X_train (y_train_enc.getD [])
      let explainer := libs.treeExplainer model
      match selectBaseline explainer.expectedValue with
      | none => ([], some (keyErrorMsg "expected_value"))
      | some baseline_class1 =>
        match output_shap_results train_ids X_train model explainer baseline_class1 with
        | none => ([], some (keyErrorMsg "shap_values"))
        | some (trainTable, train_shap_array) =>
          match output_shap_results test_ids X_test model explainer baseline_class1 with
          | none => ([OutFile.shapFile "training_shap.tsv" trainTable],
                     some (keyErrorMsg "shap_values"))
          | some (testTable, _) =>
            let mas := meanAbsPerFeature train_shap_array
            let featRows := zipFeatRows X_train.columns model.featureImportances mas
            ([OutFile.shapFile "training_shap.tsv" trainTable,
              OutFile.shapFile "testing_shap.tsv" testTable,
              OutFile.featFile "feature_importance_vs_shap.tsv"
                (List.insertionSort featGE featRows)], none)

/-! ## Order infrastructure for the string comparison used by `np.unique` -/

theorem charToNat_inj {c d : Char} (h : c.toNat = d.toNat) : c = d := by
  cases c; cases d
  simp only [Char.toNat] at h
  congr 1
  exact UInt32.toNat.inj h

theorem lexLe_total : ∀ x y : List Char, lexLe x y = true ∨ lexLe y x = true
  | [], _ => Or.inl rfl
  | _ :: _, [] => Or.inr rfl
  | c :: cs, d :: ds => by
    by_cases h : c = d
    · subst h
      simp only [lexLe, if_pos rfl]
      exact lexLe_total cs ds
    · have hne : c.toNat ≠ d.toNat := fun hn => h (charToNat_inj hn)
      rcases Nat.lt_or_ge c.toNat d.toNat with hlt | hge
      · left
        simp only [lexLe, if_neg h]
        exact decide_eq_true hlt
      · right
        have hdc : d.toNat < c.toNat := lt_of_le_of_ne hge (Ne.symm hne)
        have hdcne : d ≠ c := fun hx => h hx.symm
        simp only [lexLe]
        rw [if_neg hdcne]
        exact decide_eq_true hdc

theorem lexLe_trans :
    ∀ x y z : List Char, lexLe x y = true → lexLe y z = true → lexLe x z = true
  | [], _, _, _, _ => rfl
  | _ :: _, [], _, h1, _ => by simp [lexLe] at h1
  | _ :: _, _ :: _, [], _, h2 => by simp [lexLe] at h2
  | c :: cs, d :: ds, e :: es, h1, h2 => by
    simp only [lexLe] at h1 h2 ⊢
    by_cases hcd : c = d
    · subst hcd
      rw [if_pos rfl] at h1
      by_cases hce : c = e
      · subst hce
        rw [if_pos rfl] at h2 ⊢
        exact lexLe_trans _ _ _ h1 h2
      · rw [if_neg hce] at h2 ⊢
        exact h2
    · rw [if_neg hcd] at h1
      have hlt1 : c.toNat < d.toNat := of_decide_eq_true h1
      by_cases hde : d = e
      · subst hde
        rw [if_neg hcd]
        exact h1
      · rw [if_neg hde] at h2
        have hlt2 : d.toNat < e.toNat := of_decide_eq_true h2
        have hlt : c.toNat < e.toNat := Nat.lt_trans hlt1 hlt2
        have hce : c ≠ e := fun hx => absurd (hx ▸ hlt) (lt_irrefl _)
        rw [if_neg hce]
        exact decide_eq_true hlt

theorem lexLe_antisymm : ∀ x y : List Char, lexLe x y = true → lexLe y x = true → x = y
  | [], [], _, _ => rfl
  | [], _ :: _, _, h2 => by simp [lexLe] at h2
  | _ :: _, [], h1, _ => by simp [lexLe] at h1
  | c :: cs, d :: ds, h1, h2 => by
    simp only [lexLe] at h1 h2
    by_cases hcd : c = d
    · subst hcd
      rw [if_pos rfl] at h1 h2
      rw [lexLe_antisymm cs ds h1 h2]
    · rw [if_neg hcd] at h1
      rw [if_neg (fun hx => hcd hx.symm)] at h2
      exact absurd (of_decide_eq_true h2) (Nat.lt_asymm (of_decide_eq_true h1))

instance : IsTotal String strLe := ⟨fun a b => lexLe_total a.data b.data⟩

instance : IsTrans String strLe := ⟨fun a b c => lexLe_trans a.data b.data c.data⟩

instance : IsAntisymm String strLe := ⟨fun a b h1 h2 => by
  cases a
  cases b
  exact congrArg String.mk (lexLe_antisymm _ _ h1 h2)⟩

theorem npUnique_sorted (l : List String) : List.Sorted strLe (npUnique l) :=
  List.sorted_insertionSort strLe l.dedup

theorem npUnique_perm (l : List String) : (npUnique l).Perm l.dedup :=
  List.perm_insertionSort strLe l.dedup

theorem npUnique_nodup (l : List String) : (npUnique l).Nodup :=
  ((npUnique_perm l).nodup_iff).mpr (List.nodup_dedup l)

theorem mem_npUnique {v : String} {l : List String} : v ∈ npUnique l ↔ v ∈ l :=
  (npUnique_perm l).mem_iff.trans List.mem_dedup

/-! ## Basic frame lemmas -/

theorem listContains_iff (l : List String) (a : String) :
    l.contains a = true ↔ a ∈ l := by
  simp [List.contains, List.elem_iff]

theorem getCol_mem {df : DataFrame} {n : String} {c : Col}
    (h : df.getCol n = some c) : n ∈ df.columns := by
  unfold DataFrame.getCol at h
  cases hf : df.cols.find? (fun p => p.1 == n) with
  | none => rw [hf] at h; cases h
  | some p =>
    have hp := List.find?_some hf
    have hmem : p ∈ df.cols := List.mem_of_find?_eq_some hf
    have hpn : p.1 = n := by simpa using hp
    unfold DataFrame.columns
    exact hpn ▸ List.mem_map_of_mem Prod.fst hmem

theorem mem_getCol {df : DataFrame} {n : String} (h : n ∈ df.columns) :
    ∃ c, df.getCol n = some c := by
  unfold DataFrame.columns at h
  obtain ⟨p, hp, he⟩ := List.mem_map.mp h
  have hs : (df.cols.find? (fun q => q.1 == n)).isSome := by
    rw [List.find?_isSome]
    exact ⟨p, hp, by simp [he]⟩
  obtain ⟨q, hq⟩ := Option.isSome_iff_exists.mp hs
  exact ⟨q.2, by unfold DataFrame.getCol; rw [hq]; rfl⟩

theorem encode_columns (X : DataFrame) :
    (encode_non_numeric X).columns = X.columns := by
  unfold encode_non_numeric DataFrame.columns
  simp

/-! ## Loader characterizations -/

theorem process_data_train_missing (df : DataFrame) (name label : String)
    (sample : Option String) (le : LabelEncoder) (ids : List String)
    (hids : sampleIds df sample = .ok ids)
    (hno : label ∉ df.columns) :
    process_data df name label sample le true =
      .error (trainMissingLabelMsg name label) := by
  unfold process_data
  rw [hids]
  have hc : df.columns.contains label = false := by
    rw [← Bool.not_eq_true]
    exact fun hx => hno ((listContains_iff _ _).mp hx)
  simp only [hc, Bool.not_false, Bool.and_true, if_true, if_false]

theorem process_data_train_eq (df : DataFrame) (name label : String)
    (sample : Option String) (le : LabelEncoder) (ids : List String) (ycol : Col)
    (hids : sampleIds df sample = .ok ids)
    (hy : df.getCol label = some ycol) :
    process_data df name label sample le true =
      .ok (ids, encode_non_numeric (df.drop ([label] ++ sample.toList)),
           some (labelFitTransform ycol.asStrings),
           LabelEncoder.fit ycol.asStrings) := by
  unfold process_data
  rw [hids]
  have hc : df.columns.contains label = true :=
    (listContains_iff _ _).mpr (getCol_mem hy)
  simp only [hc, Bool.not_true, Bool.and_false, Bool.false_eq_true, if_false,
    if_true, hy]

theorem process_data_test_seen (df : DataFrame) (name label : String)
    (sample : Option String) (le : LabelEncoder) (ids : List String) (ycol : Col)
    (hids : sampleIds df sample = .ok ids)
    (hy : df.getCol label = some ycol)
    (hseen : ycol.asStrings.all (fun v => le.classes.contains v) = true) :
    process_data df name label sample le false =
      .ok (ids, encode_non_numeric (df.drop ([label] ++ sample.toList)),
           some (ycol.asStrings.map (fun v => le.classes.indexOf v)), le) := by
  unfold process_data
  rw [hids]
  have hc : df.columns.contains label = true :=
    (listContains_iff _ _).mpr (getCol_mem hy)
  simp only [hc, Bool.false_and, Bool.false_eq_true, if_false, if_true, hy,
    LabelEncoder.transform, hseen]

theorem process_data_test_unseen (df : DataFrame) (name label : String)
    (sample : Option String) (le : LabelEncoder) (ids : List String) (ycol : Col)
    (hids : sampleIds df sample = .ok ids)
    (hy : df.getCol label = some ycol)
    (hseen : ycol.asStrings.all (fun v => le.classes.contains v) = false) :
    process_data df name label sample le false = .error unseenLabelsMsg := by
  unfold process_data
  rw [hids]
  have hc : df.columns.contains label = true :=
    (listContains_iff _ _).mpr (getCol_mem hy)
  simp only [hc, Bool.false_and, Bool.false_eq_true, if_false, if_true, hy,
    LabelEncoder.transform, hseen]

theorem process_data_test_nolabel (df : DataFrame) (name label : String)
    (sample : Option String) (le : LabelEncoder) (ids : List String)
    (hids : sampleIds df sample = .ok ids)
    (hno : label ∉ df.columns) :
    process_data df name label sample le false =
      .ok (ids, encode_non_numeric (df.drop sample.toList), none, le) := by
  unfold process_data
  rw [hids]
  have hc : df.columns.contains label = false := by
    rw [← Bool.not_eq_true]
    exact fun hx => hno ((listContains_iff _ _).mp hx)
  simp only [hc, Bool.false_and, Bool.false_eq_true, if_false]

/-! ## Reporter lemmas -/

theorem output_shap_results_eq (ids : List String) (X : DataFrame)
    (model : Model) (explainer : Explainer) (b : Rat) (arr : Arr2)
    (h : shapArraySlice (explainer.shapValues X) = some arr) :
    output_shap_results ids X model explainer b =
      some (⟨fixedHeaderCols ++ X.columns,
             buildRows ids (model.predictProbaPos X) b arr⟩, arr) := by
  simp only [output_shap_results]
  rw [h]

theorem buildRows_length (ids : List String) (si : List Rat) (b : Rat)
    (arr : Arr2) :
    (buildRows ids si b arr).length =
      min (min ids.length si.length) arr.length := by
  unfold buildRows
  simp only [List.length_map, List.length_zip]

theorem buildRows_baseline {ids : List String} {si : List Rat} {b : Rat}
    {arr : Arr2} {row : OutRow} (h : row ∈ buildRows ids si b arr) :
    row.baseline = b := by
  unfold buildRows at h
  obtain ⟨p, _, he⟩ := List.mem_map.mp h
  rw [← he]

theorem buildRows_invariant :
    ∀ (ids : List String) (si : List Rat) (arr : Arr2) (b : Rat),
      List.Forall₂ (fun r p => b + r.sum = p) arr si →
      ∀ row ∈ buildRows ids si b arr, row.baseline + row.attrs.sum = row.si
  | [], _, _, _, _, row, h => by simp [buildRows] at h
  | _ :: _, [], _, _, _, row, h => by simp [buildRows] at h
  | _ :: _, _ :: _, [], _, _, row, h => by simp [buildRows] at h
  | i :: is, p :: ps, r :: rs, b, hf, row, hmem => by
    rw [List.forall₂_cons] at hf
    unfold buildRows at hmem
    simp only [List.zip_cons_cons, List.map_cons, List.mem_cons] at hmem
    rcases hmem with heq | hmem2
    · subst heq
      exact hf.1
    · exact buildRows_invariant is ps rs b hf.2 row
        (by unfold buildRows; exact hmem2)

theorem cellsAt1_eq : ∀ (r : List (List Rat)),
    (∀ c ∈ r, 1 < c.length) →
    cellsAt1 r = some (r.map (fun c => c.getD 1 0))
  | [], _ => rfl
  | c :: cs, h => by
    have hc : 1 < c.length := h c (by simp)
    have hrec := cellsAt1_eq cs (fun x hx => h x (by simp [hx]))
    unfold cellsAt1
    rw [hrec, List.get?_eq_get hc]
    simp [List.getD_eq_get?, List.get?_eq_get hc, List.getElem?_eq_getElem hc]

theorem cubeSlice1_eq : ∀ (t : List (List (List Rat))),
    (∀ row ∈ t, ∀ c ∈ row, 1 < c.length) →
    cubeSlice1 t = some (t.map (fun row => row.map (fun c => c.getD 1 0)))
  | [], _ => rfl
  | r :: rs, h => by
    have hr := cellsAt1_eq r (h r (by simp))
    have hrec := cubeSlice1_eq rs (fun x hx => h x (by simp [hx]))
    unfold cubeSlice1
    rw [hr, hrec]
    rfl

theorem zipFeatRows_mem :
    ∀ (cols : List String) (imps mas : List Rat) (r : FeatRow),
      r ∈ zipFeatRows cols imps mas →
      ∃ j, cols.get? j = some r.feature ∧ imps.get? j = some r.rfImportance ∧
        mas.get? j = some r.meanAbsShap
  | [], _, _, r, h => by simp [zipFeatRows] at h
  | _ :: _, [], _, r, h => by simp [zipFeatRows] at h
  | _ :: _, _ :: _, [], r, h => by simp [zipFeatRows] at h
  | c :: cs, i :: is, m :: ms, r, h => by
    unfold zipFeatRows at h
    simp only [List.zip_cons_cons, List.map_cons, List.mem_cons] at h
    rcases h with heq | h2
    · exact ⟨0, by subst heq; simp⟩
    · obtain ⟨j, hj1, hj2, hj3⟩ :=
        zipFeatRows_mem cs is ms r (by unfold zipFeatRows; exact h2)
      exact ⟨j + 1, by simpa using hj1, by simpa using hj2, by simpa using hj3⟩

theorem zipFeatRows_length (cols : List String) (imps mas : List Rat) :
    (zipFeatRows cols imps mas).length =
      min (min cols.length imps.length) mas.length := by
  unfold zipFeatRows
  simp only [List.length_map, List.length_zip]

theorem zipFeatRows_map_feature :
    ∀ (cols : List String) (imps mas : List Rat),
      imps.length = cols.length → mas.length = cols.length →
      (zipFeatRows cols imps mas).map (fun r => r.feature) = cols
  | [], [], [], _, _ => rfl
  | [], i :: is, _, h1, _ => by simp at h1
  | [], [], m :: ms, _, h2 => by simp at h2
  | c :: cs, [], _, h1, _ => by simp at h1
  | c :: cs, i :: is, [], _, h2 => by simp at h2
  | c :: cs, i :: is, m :: ms, h1, h2 => by
    unfold zipFeatRows
    simp only [List.zip_cons_cons, List.map_cons]
    have := zipFeatRows_map_feature cs is ms (by simpa using h1) (by simpa using h2)
    unfold zipFeatRows at this
    rw [this]

theorem meanAbsPerFeature_get? (r0 : List Rat) (rest : Arr2) (j : Nat)
    (hj : j < r0.length) :
    (meanAbsPerFeature (r0 :: rest)).get? j =
      some (((r0 :: rest).map (fun r => |r.getD j 0|)).sum /
        ((((r0 :: rest).length : Nat)) : Rat)) := by
  unfold meanAbsPerFeature
  rw [List.get?_map, List.get?_range hj]
  rfl

theorem meanAbsPerFeature_length (r0 : List Rat) (rest : Arr2) :
    (meanAbsPerFeature (r0 :: rest)).length = r0.length := by
  unfold meanAbsPerFeature
  simp

/-- Normal form of a fully successful run: the hypotheses are the success of
the two loader calls and well-shaped engine outputs; the conclusion lists
the three files written, in order, and the absence of an error. -/
theorem mainRun_eq (libs : RunLibs) (trainDf testDf : DataFrame)
    (tn sn label : String) (sample : Option String)
    (trIds teIds : List String) (Xtr Xte : DataFrame) (yTr : List Nat)
    (yte : Option (List Nat)) (le1 le2 : LabelEncoder) (b : Rat)
    (arrTr arrTe : Arr2)
    (h1 : process_data trainDf tn label sample ⟨[]⟩ true =
      .ok (trIds, Xtr, some yTr, le1))
    (h2 : process_data testDf sn label sample le1 false =
      .ok (teIds, Xte, yte, le2))
    (h3 : selectBaseline
      (libs.treeExplainer (libs.fitModel Xtr yTr)).expectedValue = some b)
    (h4 : shapArraySlice
      ((libs.treeExplainer (libs.fitModel Xtr yTr)).shapValues Xtr) = some arrTr)
    (h5 : shapArraySlice
      ((libs.treeExplainer (libs.fitModel Xtr yTr)).shapValues Xte) = some arrTe) :
    mainRun libs trainDf tn testDf sn label sample =
      ([OutFile.shapFile "training_shap.tsv"
          ⟨fixedHeaderCols ++ Xtr.columns,
           buildRows trIds ((libs.fitModel Xtr yTr).predictProbaPos Xtr) b arrTr⟩,
        OutFile.shapFile "testing_shap.tsv"
          ⟨fixedHeaderCols ++ Xte.columns,
           buildRows teIds ((libs.fitModel Xtr yTr).predictProbaPos Xte) b arrTe⟩,
        OutFile.featFile "feature_importance_vs_shap.tsv"
          (List.insertionSort featGE
            (zipFeatRows Xtr.columns (libs.fitModel Xtr yTr).featureImportances
              (meanAbsPerFeature arrTr)))], none) := by
  unfold mainRun
  rw [h1]
  dsimp only
  rw [h2]
  dsimp only [Option.getD_some]
  rw [h3]
  dsimp only
  rw [output_shap_results_eq _ _ _ _ _ _ h4]
  dsimp only
  rw [output_shap_results_eq _ _ _ _ _ _ h5]

/-! ## Concrete example data (the end-to-end scenario of the specification) -/

/-- Training table: 4 samples, features `age` (numeric) and `tissue`
(categorical), label `stem`. -/
def trainDfEx : DataFrame :=
  ⟨[("id", .strCol ["s1", "s2", "s3", "s4"]),
    ("age", .numCol [1, 2, 3, 4]),
    ("tissue", .strCol ["liver", "lung", "liver", "lung"]),
    ("stem", .strCol ["yes", "no", "yes", "no"])]⟩

/-- Scoring table: 2 samples, same feature columns, no label column. -/
def testDfEx : DataFrame :=
  ⟨[("id", .strCol ["t1", "t2"]),
    ("age", .numCol [5, 6]),
    ("tissue", .strCol ["lung", "liver"])]⟩

/-- The encoded training feature matrix of `trainDfEx`. -/
def XtrEx : DataFrame :=
  ⟨[("age", .numCol [1, 2, 3, 4]), ("tissue", .numCol [0, 1, 0, 1])]⟩

/-- The encoded scoring feature matrix of `testDfEx`. -/
def XteEx : DataFrame :=
  ⟨[("age", .numCol [5, 6]), ("tissue", .numCol [1, 0])]⟩

/-- A training table lacking the declared label column `stem`. -/
def trainDfNoLabelEx : DataFrame :=
  ⟨[("id", .strCol ["s1", "s2"]), ("age", .numCol [1, 2])]⟩

/-- A scoring table whose `stem` column holds a label unseen in training. -/
def testDfUnseenEx : DataFrame :=
  ⟨[("id", .strCol ["t1"]), ("age", .numCol [7]),
    ("stem", .strCol ["maybe"])]⟩

/-- A concrete black-box instance: the model predicts probability 1/2 for
every sample, and the explainer returns a flat 2-d array whose rows sum to
the prediction with expected values `[1/2, 0]` (so the selected class-1
baseline is 0). -/
def libsEx : RunLibs :=
  { fitModel := fun _ _ =>
      { predictProbaPos := fun X => List.replicate X.nrows (mkRat 1 2),
        featureImportances := [mkRat 3 4, mkRat 1 4] },
    treeExplainer := fun m =>
      { shapValues := fun X =>
          .flat ((m.predictProbaPos X).map (fun p => [p, 0])),
        expectedValue := [mkRat 1 2, 0] } }

/-! ## Claims -/

/-- C2: for a training table whose columns do not include the declared label
column (and whose sample column, when named, resolves), `process_data`
fails with the configuration error whose text embeds both the file name and
the missing column name, and `main` terminates with that error having
written no output file at all. -/
theorem C2_train_missing_label_fails_before_output
    (trainDf testDf : DataFrame) (tn sn label : String)
    (sample : Option String) (le : LabelEncoder) (ids : List String)
    (libs : RunLibs)
    (hids : sampleIds trainDf sample = .ok ids)
    (hno : label ∉ trainDf.columns) :
    process_data trainDf tn label sample le true =
        .error (trainMissingLabelMsg tn label) ∧
    mainRun libs trainDf tn testDf sn label sample =
        ([], some (trainMissingLabelMsg tn label)) ∧
    (∃ s t u, trainMissingLabelMsg tn label = s ++ tn ++ t ++ label ++ u) := by
  refine ⟨process_data_train_missing _ _ _ _ _ _ hids hno, ?_, ?_⟩
  · unfold mainRun
    rw [process_data_train_missing _ _ _ _ _ _ hids hno]
  · exact ⟨"Training file (\x27", "\x27) missing required label column \x27",
      "\x27", rfl⟩

theorem C2_witness :
    sampleIds trainDfNoLabelEx (some "id") = .ok ["s1", "s2"] ∧
    "stem" ∉ trainDfNoLabelEx.columns ∧
    process_data trainDfNoLabelEx "training.txt" "stem" (some "id") ⟨[]⟩ true =
      .error (trainMissingLabelMsg "training.txt" "stem") ∧
    mainRun libsEx trainDfNoLabelEx "training.txt" testDfEx "testing.txt"
        "stem" (some "id") =
      ([], some (trainMissingLabelMsg "training.txt" "stem")) :=
  ⟨by decide, by decide,
   (C2_train_missing_label_fails_before_output trainDfNoLabelEx testDfEx
      "training.txt" "testing.txt" "stem" (some "id") ⟨[]⟩ ["s1", "s2"] libsEx
      (by decide) (by decide)).1,
   (C2_train_missing_label_fails_before_output trainDfNoLabelEx testDfEx
      "training.txt" "testing.txt" "stem" (some "id") ⟨[]⟩ ["s1", "s2"] libsEx
      (by decide) (by decide)).2.1⟩

/-- C3: the label-encoding map returned by the training call is exactly the
one fit on the training table's label values; a scoring call returns the
encoder unchanged whenever it succeeds (the map is only applied, never
refit); and a scoring table holding a label value absent from the training
labels makes processing fail with the unseen-labels error. -/
theorem C3_label_map_fit_once_never_refit
    (trainDf : DataFrame) (tn label : String) (sample : Option String)
    (le0 le1 : LabelEncoder) (trIds : List String) (Xtr : DataFrame)
    (yc : Option (List Nat)) (ycol : Col)
    (hy : trainDf.getCol label = some ycol)
    (h1 : process_data trainDf tn label sample le0 true =
      .ok (trIds, Xtr, yc, le1)) :
    le1 = LabelEncoder.fit ycol.asStrings ∧
    (∀ (testDf : DataFrame) (sn : String) (ids2 : List String)
       (X2 : DataFrame) (yc2 : Option (List Nat)) (le2 : LabelEncoder),
      process_data testDf sn label sample le1 false = .ok (ids2, X2, yc2, le2) →
      le2 = le1) ∧
    (∀ (testDf : DataFrame) (sn : String) (ycol2 : Col) (v : String)
       (ids0 : List String),
      sampleIds testDf sample = .ok ids0 →
      testDf.getCol label = some ycol2 →
      v ∈ ycol2.asStrings → v ∉ ycol.asStrings →
      process_data testDf sn label sample le1 false =
        .error unseenLabelsMsg) := by
  have hfit : le1 = LabelEncoder.fit ycol.asStrings := by
    cases hs : sampleIds trainDf sample with
    | error e =>
      unfold process_data at h1
      rw [hs] at h1
      cases h1
    | ok ids =>
      rw [process_data_train_eq trainDf tn label sample le0 ids ycol hs hy] at h1
      simp only [Except.ok.injEq, Prod.mk.injEq] at h1
      exact h1.2.2.2.symm
  refine ⟨hfit, ?_, ?_⟩
  · intro testDf sn ids2 X2 yc2 le2 hp
    cases hs2 : sampleIds testDf sample with
    | error e =>
      unfold process_data at hp
      rw [hs2] at hp
      cases hp
    | ok ids0 =>
      unfold process_data at hp
      rw [hs2] at hp
      simp only [Bool.false_and, Bool.false_eq_true, if_false] at hp
      by_cases hbl : testDf.columns.contains label = true
      · rw [hbl] at hp
        simp only [if_true] at hp
        cases hg : testDf.getCol label with
        | none => rw [hg] at hp; cases hp
        | some yy =>
          rw [hg] at hp
          dsimp only at hp
          cases ht : le1.transform yy.asStrings with
          | ok codes =>
            rw [ht] at hp
            simp only [Except.ok.injEq, Prod.mk.injEq] at hp
            exact hp.2.2.2.symm
          | error e =>
            rw [ht] at hp
            cases hp
      · have hbf : testDf.columns.contains label = false :=
          Bool.eq_false_iff.mpr hbl
        rw [hbf] at hp
        simp only [Bool.false_eq_true, if_false] at hp
        simp only [Except.ok.injEq, Prod.mk.injEq] at hp
        exact hp.2.2.2.symm
  · intro testDf sn ycol2 v ids0 hids0 hy2 hvmem hvnot
    have hclasses : v ∉ le1.classes := by
      rw [hfit]
      intro hvm
      exact hvnot (mem_npUnique.mp hvm)
    have hall : ycol2.asStrings.all (fun x => le1.classes.contains x) = false := by
      cases hb : ycol2.asStrings.all (fun x => le1.classes.contains x) with
      | false => rfl
      | true =>
        exfalso
        exact hclasses
          ((listContains_iff _ _).mp (List.all_eq_true.mp hb v hvmem))
    exact process_data_test_unseen testDf sn label sample le1 ids0 ycol2
      hids0 hy2 hall

theorem C3_witness :
    trainDfEx.getCol "stem" = some (.strCol ["yes", "no", "yes", "no"]) ∧
    process_data trainDfEx "training.txt" "stem" (some "id") ⟨[]⟩ true =
      .ok (["s1", "s2", "s3", "s4"], XtrEx, some [1, 0, 1, 0],
           ⟨["no", "yes"]⟩) ∧
    (⟨["no", "yes"]⟩ : LabelEncoder) =
      LabelEncoder.fit ["yes", "no", "yes", "no"] ∧
    process_data testDfUnseenEx "testing.txt" "stem" (some "id")
        ⟨["no", "yes"]⟩ false = .error unseenLabelsMsg :=
  ⟨by decide, by decide,
   (C3_label_map_fit_once_never_refit trainDfEx "training.txt" "stem"
      (some "id") ⟨[]⟩ ⟨["no", "yes"]⟩ ["s1", "s2", "s3", "s4"] XtrEx
      (some [1, 0, 1, 0]) (.strCol ["yes", "no", "yes", "no"])
      (by decide) (by decide)).1,
   (C3_label_map_fit_once_never_refit trainDfEx "training.txt" "stem"
      (some "id") ⟨[]⟩ ⟨["no", "yes"]⟩ ["s1", "s2", "s3", "s4"] XtrEx
      (some [1, 0, 1, 0]) (.strCol ["yes", "no", "yes", "no"])
      (by decide) (by decide)).2.2 testDfUnseenEx "testing.txt"
      (.strCol ["maybe"]) "maybe" ["t1"] (by decide) (by decide)
      (by decide) (by decide)⟩

/-- C4: the reporter's positive-class selection rule — a per-class list with
more than one array yields its index-1 element; a 3-dimensional array
yields its class-1 slice; a plain 2-dimensional array passes through as-is;
and the baseline is index 1 of the expected values when more than one
exists, else the sole value. -/
theorem C4_positive_class_selection_rule :
    (∀ l : List Arr2, 1 < l.length → shapArraySlice (.perClass l) = l.get? 1) ∧
    (∀ t : List (List (List Rat)), (∀ row ∈ t, ∀ c ∈ row, 1 < c.length) →
      shapArraySlice (.cube t) =
        some (t.map (fun row => row.map (fun c => c.getD 1 0)))) ∧
    (∀ m : Arr2, shapArraySlice (.flat m) = some m) ∧
    (∀ bs : List Rat, 1 < bs.length → selectBaseline bs = bs.get? 1) ∧
    (∀ bs : List Rat, bs.length = 1 → selectBaseline bs = bs.get? 0) := by
  refine ⟨?_, ?_, ?_, ?_, ?_⟩
  · intro l h
    unfold shapArraySlice
    dsimp only
    rw [if_pos h]
  · intro t h
    exact cubeSlice1_eq t h
  · intro m
    rfl
  · intro bs h
    unfold selectBaseline
    rw [if_pos h]
  · intro bs h
    unfold selectBaseline
    rw [if_neg (by rw [h]; exact lt_irrefl 1)]

theorem C4_witness :
    (1 < ([[[1, 2]], [[3, 4]]] : List Arr2).length ∧
      shapArraySlice (.perClass [[[1, 2]], [[3, 4]]]) = some [[3, 4]]) ∧
    ((∀ row ∈ ([[[1, 2], [3, 4]], [[5, 6], [7, 8]]] :
        List (List (List Rat))), ∀ c ∈ row, 1 < c.length) ∧
      shapArraySlice (.cube [[[1, 2], [3, 4]], [[5, 6], [7, 8]]]) =
        some [[2, 4], [6, 8]]) ∧
    shapArraySlice (.flat [[9, 10]]) = some [[9, 10]] ∧
    (1 < ([5, 7] : List Rat).length ∧ selectBaseline [5, 7] = some 7) ∧
    (([6] : List Rat).length = 1 ∧ selectBaseline [6] = some 6) :=
  ⟨⟨by decide, C4_positive_class_selection_rule.1 [[[1, 2]], [[3, 4]]]
      (by decide)⟩,
   ⟨by decide, by
      have h := C4_positive_class_selection_rule.2.1
        [[[1, 2], [3, 4]], [[5, 6], [7, 8]]] (by decide)
      rw [h]; decide⟩,
   C4_positive_class_selection_rule.2.2.1 [[9, 10]],
   ⟨by decide, C4_positive_class_selection_rule.2.2.2.1 [5, 7] (by decide)⟩,
   ⟨by decide, C4_positive_class_selection_rule.2.2.2.2 [6] (by decide)⟩⟩

/-- C7: the feature encoder leaves every numeric column untouched in place,
replaces every non-numeric column positionally by the codes fit fresh on
that column's own values, maps distinct values of a non-numeric column to
distinct (rational) codes, and every feature matrix a successful
`process_data` call returns — training or scoring — is an encoder output. -/
theorem C7_feature_encoder_contract :
    (∀ (X : DataFrame) (j : Nat) (n : String) (vs : List Rat),
      X.cols.get? j = some (n, .numCol vs) →
      (encode_non_numeric X).cols.get? j = some (n, .numCol vs)) ∧
    (∀ (X : DataFrame) (j : Nat) (n : String) (vs : List String),
      X.cols.get? j = some (n, .strCol vs) →
      (encode_non_numeric X).cols.get? j =
        some (n, .numCol ((labelFitTransform vs).map (fun k => (k : Rat))))) ∧
    (∀ (vs : List String) (i k : Nat) (v w : String),
      vs.get? i = some v → vs.get? k = some w → v ≠ w →
      (labelFitTransform vs).get? i ≠ (labelFitTransform vs).get? k) ∧
    (∀ (df : DataFrame) (name label : String) (sample : Option String)
       (le : LabelEncoder) (b : Bool) (ids : List String) (X : DataFrame)
       (yc : Option (List Nat)) (le2 : LabelEncoder),
      process_data df name label sample le b = .ok (ids, X, yc, le2) →
      ∃ X0, X = encode_non_numeric X0) := by
  refine ⟨?_, ?_, ?_, ?_⟩
  · intro X j n vs hj
    unfold encode_non_numeric
    rw [List.get?_map, hj]
    rfl
  · intro X j n vs hj
    unfold encode_non_numeric
    rw [List.get?_map, hj]
    rfl
  · intro vs i k v w hv hw hne
    simp only [labelFitTransform, List.get?_map, hv, hw, Option.map_some,
      Option.map_some', ne_eq, Option.some.injEq]
    intro heq
    have hvm : v ∈ npUnique vs := mem_npUnique.mpr (List.get?_mem hv)
    have hwm : w ∈ npUnique vs := mem_npUnique.mpr (List.get?_mem hw)
    exact hne ((List.indexOf_inj hvm hwm).mp heq)
  · intro df name label sample le b ids X yc le2 hok
    cases hs : sampleIds df sample with
    | error e =>
      unfold process_data at hok
      rw [hs] at hok
      cases hok
    | ok ids0 =>
      by_cases hbl : label ∈ df.columns
      · obtain ⟨ycol, hy⟩ := mem_getCol hbl
        cases b with
        | true =>
          rw [process_data_train_eq df name label sample le ids0 ycol hs hy]
            at hok
          simp only [Except.ok.injEq, Prod.mk.injEq] at hok
          exact ⟨_, hok.2.1.symm⟩
        | false =>
          cases ht : le.transform ycol.asStrings with
          | ok codes =>
            have hseen : ycol.asStrings.all
                (fun v => le.classes.contains v) = true := by
              cases hb2 : ycol.asStrings.all (fun v => le.classes.contains v) with
              | true => rfl
              | false =>
                unfold LabelEncoder.transform at ht
                rw [hb2] at ht
                simp only [Bool.false_eq_true, if_false] at ht
                exact Except.noConfusion ht
            rw [process_data_test_seen df name label sample le ids0 ycol
              hs hy hseen] at hok
            simp only [Except.ok.injEq, Prod.mk.injEq] at hok
            exact ⟨_, hok.2.1.symm⟩
          | error e =>
            have hseen : ycol.asStrings.all
                (fun v => le.classes.contains v) = false := by
              cases hb2 : ycol.asStrings.all (fun v => le.classes.contains v) with
              | false => rfl
              | true =>
                unfold LabelEncoder.transform at ht
                rw [hb2] at ht
                simp only [if_true] at ht
                exact Except.noConfusion ht
            rw [process_data_test_unseen df name label sample le ids0 ycol
              hs hy hseen] at hok
            exact Except.noConfusion hok
      · cases b with
        | true =>
          rw [process_data_train_missing df name label sample le ids0 hs hbl]
            at hok
          exact Except.noConfusion hok
        | false =>
          rw [process_data_test_nolabel df name label sample le ids0 hs hbl]
            at hok
          simp only [Except.ok.injEq, Prod.mk.injEq] at hok
          exact ⟨_, hok.2.1.symm⟩

theorem C7_witness :
    (trainDfEx.cols.get? 1 = some ("age", .numCol [1, 2, 3, 4]) ∧
      (encode_non_numeric trainDfEx).cols.get? 1 =
        some ("age", .numCol [1, 2, 3, 4])) ∧
    (testDfEx.cols.get? 2 = some ("tissue", .strCol ["lung", "liver"]) ∧
      (encode_non_numeric testDfEx).cols.get? 2 =
        some ("tissue", .numCol ((labelFitTransform ["lung", "liver"]).map
          (fun k => (k : Rat))))) ∧
    ((["lung", "liver"] : List String).get? 0 = some "lung" ∧
      (labelFitTransform ["lung", "liver"]).get? 0 ≠
        (labelFitTransform ["lung", "liver"]).get? 1) ∧
    (process_data testDfEx "testing.txt" "stem" (some "id")
        ⟨["no", "yes"]⟩ false =
      .ok (["t1", "t2"], XteEx, none, ⟨["no", "yes"]⟩) ∧
      ∃ X0, XteEx = encode_non_numeric X0) :=
  ⟨⟨by decide, C7_feature_encoder_contract.1 trainDfEx 1 "age" [1, 2, 3, 4]
      (by decide)⟩,
   ⟨by decide, C7_feature_encoder_contract.2.1 testDfEx 2 "tissue"
      ["lung", "liver"] (by decide)⟩,
   ⟨by decide, C7_feature_encoder_contract.2.2.1 ["lung", "liver"] 0 1
      "lung" "liver" (by decide) (by decide) (by decide)⟩,
   ⟨by decide, C7_feature_encoder_contract.2.2.2 testDfEx "testing.txt" "stem"
      (some "id") ⟨["no", "yes"]⟩ false ["t1", "t2"] XteEx none
      ⟨["no", "yes"]⟩ (by decide)⟩⟩

/-- C9 counterexample: encoding is not mutation-free — after
`encode_non_numeric` returns, the frame that was passed in no longer equals
its original value whenever it had a non-numeric column (the source's
`X[col] = le.fit_transform(...)` assigns into the caller's object). -/
theorem C9_counterexample :
    encode_non_numeric_arg_after ⟨[("tissue", Col.strCol ["liver", "lung"])]⟩ ≠
      ⟨[("tissue", Col.strCol ["liver", "lung"])]⟩ := by
  decide

/-- C9 (amended): entities are used read-only after creation except that
`encode_non_numeric` updates the frame it is given in place; the argument
ends up equal to the returned encoded frame, and it is left unchanged
exactly when every column is already numeric. -/
theorem C9_readonly_except_encode_in_place (X : DataFrame) :
    (X.allNumericB = true → encode_non_numeric_arg_after X = X) ∧
    encode_non_numeric_arg_after X = encode_non_numeric X := by
  constructor
  · intro h
    unfold encode_non_numeric_arg_after encode_non_numeric
    unfold DataFrame.allNumericB at h
    cases X with
    | mk cols =>
      congr 1
      dsimp only at h
      induction cols with
      | nil => rfl
      | cons p ps ih =>
        simp only [List.all_cons, Bool.and_eq_true] at h
        simp only [List.map_cons]
        have hp : encodeCol p.2 = p.2 := by
          cases hc : p.2 with
          | numCol vs => rfl
          | strCol vs =>
            rw [hc] at h
            simp [Col.isNum] at h
        rw [hp, ih h.2]
  · rfl

theorem C9_witness :
    (⟨[("age", Col.numCol [1, 2])]⟩ : DataFrame).allNumericB = true ∧
    encode_non_numeric_arg_after ⟨[("age", Col.numCol [1, 2])]⟩ =
      ⟨[("age", Col.numCol [1, 2])]⟩ :=
  ⟨by decide,
   (C9_readonly_except_encode_in_place ⟨[("age", Col.numCol [1, 2])]⟩).1
     (by decide)⟩

/-- C10: the label map fit on the training labels is their sorted distinct
list — codes ascend in lexicographic (code-point) order — so with exactly
two distinct training labels the positive class (code 1) is the
lexicographically greater label string. -/
theorem C10_positive_class_is_greater_label (l : List String) (a b : String)
    (hperm : l.dedup.Perm [a, b]) (hab : strLe a b) (hne : a ≠ b) :
    List.Sorted strLe (LabelEncoder.fit l).classes ∧
    (LabelEncoder.fit l).classes.Nodup ∧
    (∀ v, v ∈ (LabelEncoder.fit l).classes ↔ v ∈ l) ∧
    (LabelEncoder.fit l).classes = [a, b] ∧
    (LabelEncoder.fit l).classes.indexOf a = 0 ∧
    (LabelEncoder.fit l).classes.indexOf b = 1 := by
  have heq : npUnique l = [a, b] := by
    have hperm2 : (npUnique l).Perm [a, b] := (npUnique_perm l).trans hperm
    have hsorted2 : List.Sorted strLe [a, b] := by
      rw [List.sorted_cons]
      exact ⟨fun x hx => by rw [List.mem_singleton.mp hx]; exact hab,
        List.sorted_singleton b⟩
    exact List.eq_of_perm_of_sorted hperm2 (npUnique_sorted l) hsorted2
  refine ⟨npUnique_sorted l, npUnique_nodup l, fun v => mem_npUnique, ?_, ?_, ?_⟩
  · exact heq
  · show (npUnique l).indexOf a = 0
    rw [heq]
    exact List.indexOf_cons_self a [b]
  · show (npUnique l).indexOf b = 1
    rw [heq, List.indexOf_cons_ne [b] hne, List.indexOf_cons_self]

theorem C10_witness :
    (["yes", "no", "yes", "no"] : List String).dedup.Perm ["no", "yes"] ∧
    strLe "no" "yes" ∧ "no" ≠ "yes" ∧
    (LabelEncoder.fit ["yes", "no", "yes", "no"]).classes = ["no", "yes"] ∧
    (LabelEncoder.fit ["yes", "no", "yes", "no"]).classes.indexOf "no" = 0 ∧
    (LabelEncoder.fit ["yes", "no", "yes", "no"]).classes.indexOf "yes" = 1 :=
  ⟨by decide, by decide, by decide,
   (C10_positive_class_is_greater_label ["yes", "no", "yes", "no"] "no" "yes"
      (by decide) (by decide) (by decide)).2.2.2.1,
   (C10_positive_class_is_greater_label ["yes", "no", "yes", "no"] "no" "yes"
      (by decide) (by decide) (by decide)).2.2.2.2.1,
   (C10_positive_class_is_greater_label ["yes", "no", "yes", "no"] "no" "yes"
      (by decide) (by decide) (by decide)).2.2.2.2.2⟩

/-- C1: when the attribution engine satisfies its local-accuracy contract on
the two matrices of the run — selected baseline plus the sum of a sample's
selected attribution row equals the model's predicted positive-class
probability, the spec's defining guarantee of the black-box method — every
row of every per-sample table the pipeline writes satisfies
`baseline + sum(attributions) = StemSCAPE-SI` exactly in that same row
(hence within the 1e-6 relative tolerance). -/
theorem C1_additivity_of_output_rows
    (libs : RunLibs) (trainDf testDf : DataFrame) (tn sn label : String)
    (sample : Option String) (trIds teIds : List String)
    (Xtr Xte : DataFrame) (yTr : List Nat) (yte : Option (List Nat))
    (le1 le2 : LabelEncoder) (b : Rat) (arrTr arrTe : Arr2)
    (h1 : process_data trainDf tn label sample ⟨[]⟩ true =
      .ok (trIds, Xtr, some yTr, le1))
    (h2 : process_data testDf sn label sample le1 false =
      .ok (teIds, Xte, yte, le2))
    (h3 : selectBaseline
      (libs.treeExplainer (libs.fitModel Xtr yTr)).expectedValue = some b)
    (h4 : shapArraySlice
      ((libs.treeExplainer (libs.fitModel Xtr yTr)).shapValues Xtr) = some arrTr)
    (h5 : shapArraySlice
      ((libs.treeExplainer (libs.fitModel Xtr yTr)).shapValues Xte) = some arrTe)
    (hlaTr : List.Forall₂ (fun r p => b + r.sum = p) arrTr
      ((libs.fitModel Xtr yTr).predictProbaPos Xtr))
    (hlaTe : List.Forall₂ (fun r p => b + r.sum = p) arrTe
      ((libs.fitModel Xtr yTr).predictProbaPos Xte)) :
    ∀ (fname : String) (t : OutTable),
      OutFile.shapFile fname t ∈
        (mainRun libs trainDf tn testDf sn label sample).1 →
      ∀ row ∈ t.rows, row.baseline + row.attrs.sum = row.si := by
  intro fname t hmem row hrow
  rw [mainRun_eq libs trainDf testDf tn sn label sample trIds teIds Xtr Xte
    yTr yte le1 le2 b arrTr arrTe h1 h2 h3 h4 h5] at hmem
  simp only [List.mem_cons, List.not_mem_nil, or_false] at hmem
  rcases hmem with he1 | he2 | he3
  · injection he1 with hf ht
    subst ht
    exact buildRows_invariant _ _ _ _ hlaTr row hrow
  · injection he2 with hf ht
    subst ht
    exact buildRows_invariant _ _ _ _ hlaTe row hrow
  · exact OutFile.noConfusion he3

/-- The class-1 attribution array `libsEx` yields on the example training
matrix. -/
def arrTrLit : Arr2 :=
  [[mkRat 1 2, 0], [mkRat 1 2, 0], [mkRat 1 2, 0], [mkRat 1 2, 0]]

/-- The class-1 attribution array `libsEx` yields on the example scoring
matrix. -/
def arrTeLit : Arr2 := [[mkRat 1 2, 0], [mkRat 1 2, 0]]

/-- The per-sample training table the example run writes. -/
def trainTableLit : OutTable :=
  ⟨["SampleID", "baseline_value", "StemSCAPE-SI", "age", "tissue"],
   [⟨"s1", 0, mkRat 1 2, [mkRat 1 2, 0]⟩, ⟨"s2", 0, mkRat 1 2, [mkRat 1 2, 0]⟩,
    ⟨"s3", 0, mkRat 1 2, [mkRat 1 2, 0]⟩, ⟨"s4", 0, mkRat 1 2, [mkRat 1 2, 0]⟩]⟩

theorem C1_witness :
    OutFile.shapFile "training_shap.tsv" trainTableLit ∈
      (mainRun libsEx trainDfEx "training.txt" testDfEx "testing.txt" "stem"
        (some "id")).1 ∧
    (⟨"s1", 0, mkRat 1 2, [mkRat 1 2, 0]⟩ : OutRow).baseline +
        (⟨"s1", 0, mkRat 1 2, [mkRat 1 2, 0]⟩ : OutRow).attrs.sum =
      (⟨"s1", 0, mkRat 1 2, [mkRat 1 2, 0]⟩ : OutRow).si := by
  have hmem : OutFile.shapFile "training_shap.tsv" trainTableLit ∈
      (mainRun libsEx trainDfEx "training.txt" testDfEx "testing.txt" "stem"
        (some "id")).1 := by
    rw [mainRun_eq libsEx trainDfEx testDfEx "training.txt" "testing.txt"
        "stem" (some "id") ["s1", "s2", "s3", "s4"] ["t1", "t2"] XtrEx XteEx
        [1, 0, 1, 0] none ⟨["no", "yes"]⟩ ⟨["no", "yes"]⟩ 0 arrTrLit arrTeLit
        (by decide) (by decide) (by decide) (by decide) (by decide)]
    exact List.mem_cons_self _ _
  refine ⟨hmem, ?_⟩
  exact C1_additivity_of_output_rows libsEx trainDfEx testDfEx "training.txt"
    "testing.txt" "stem" (some "id") ["s1", "s2", "s3", "s4"] ["t1", "t2"]
    XtrEx XteEx [1, 0, 1, 0] none ⟨["no", "yes"]⟩ ⟨["no", "yes"]⟩ 0
    arrTrLit arrTeLit (by decide) (by decide) (by decide) (by decide)
    (by decide)
    (by
      show List.Forall₂ _ arrTrLit [mkRat 1 2, mkRat 1 2, mkRat 1 2, mkRat 1 2]
      simp only [arrTrLit, List.forall₂_cons, List.Forall₂.nil, List.sum_cons,
        List.sum_nil, Rat.mkRat_eq_div]
      norm_num)
    (by
      show List.Forall₂ _ arrTeLit [mkRat 1 2, mkRat 1 2]
      simp only [arrTeLit, List.forall₂_cons, List.Forall₂.nil, List.sum_cons,
        List.sum_nil, Rat.mkRat_eq_div]
      norm_num)
    "training_shap.tsv" trainTableLit hmem
    ⟨"s1", 0, mkRat 1 2, [mkRat 1 2, 0]⟩ (by decide)

/-- C5: each per-sample table has header `SampleID, baseline_value,
StemSCAPE-SI` followed by the feature columns in matrix order, one row per
input sample, the same baseline scalar in every row of both tables — both
built from the single explainer and the single selected baseline of the
run, never recomputed between the two matrices. -/
theorem C5_per_sample_table_layout
    (libs : RunLibs) (trainDf testDf : DataFrame) (tn sn label : String)
    (sample : Option String) (trIds teIds : List String)
    (Xtr Xte : DataFrame) (yTr : List Nat) (yte : Option (List Nat))
    (le1 le2 : LabelEncoder) (b : Rat) (arrTr arrTe : Arr2)
    (h1 : process_data trainDf tn label sample ⟨[]⟩ true =
      .ok (trIds, Xtr, some yTr, le1))
    (h2 : process_data testDf sn label sample le1 false =
      .ok (teIds, Xte, yte, le2))
    (h3 : selectBaseline
      (libs.treeExplainer (libs.fitModel Xtr yTr)).expectedValue = some b)
    (h4 : shapArraySlice
      ((libs.treeExplainer (libs.fitModel Xtr yTr)).shapValues Xtr) = some arrTr)
    (h5 : shapArraySlice
      ((libs.treeExplainer (libs.fitModel Xtr yTr)).shapValues Xte) = some arrTe)
    (hl1 : trIds.length = Xtr.nrows)
    (hl2 : ((libs.fitModel Xtr yTr).predictProbaPos Xtr).length = Xtr.nrows)
    (hl3 : arrTr.length = Xtr.nrows)
    (hl4 : teIds.length = Xte.nrows)
    (hl5 : ((libs.fitModel Xtr yTr).predictProbaPos Xte).length = Xte.nrows)
    (hl6 : arrTe.length = Xte.nrows) :
    ∃ trRows teRows,
      mainRun libs trainDf tn testDf sn label sample =
        ([OutFile.shapFile "training_shap.tsv"
            ⟨fixedHeaderCols ++ Xtr.columns, trRows⟩,
          OutFile.shapFile "testing_shap.tsv"
            ⟨fixedHeaderCols ++ Xte.columns, teRows⟩,
          OutFile.featFile "feature_importance_vs_shap.tsv"
            (List.insertionSort featGE (zipFeatRows Xtr.columns
              (libs.fitModel Xtr yTr).featureImportances
              (meanAbsPerFeature arrTr)))], none) ∧
      trRows.length = Xtr.nrows ∧ teRows.length = Xte.nrows ∧
      (∀ row ∈ trRows, row.baseline = b) ∧
      (∀ row ∈ teRows, row.baseline = b) := by
  refine ⟨buildRows trIds ((libs.fitModel Xtr yTr).predictProbaPos Xtr) b arrTr,
    buildRows teIds ((libs.fitModel Xtr yTr).predictProbaPos Xte) b arrTe,
    mainRun_eq libs trainDf testDf tn sn label sample trIds teIds Xtr Xte
      yTr yte le1 le2 b arrTr arrTe h1 h2 h3 h4 h5, ?_, ?_, ?_, ?_⟩
  · rw [buildRows_length, hl1, hl2, hl3, min_self, min_self]
  · rw [buildRows_length, hl4, hl5, hl6, min_self, min_self]
  · intro row hrow
    exact buildRows_baseline hrow
  · intro row hrow
    exact buildRows_baseline hrow

theorem C5_witness :
    ∃ trRows teRows,
      mainRun libsEx trainDfEx "training.txt" testDfEx "testing.txt" "stem"
          (some "id") =
        ([OutFile.shapFile "training_shap.tsv"
            ⟨fixedHeaderCols ++ XtrEx.columns, trRows⟩,
          OutFile.shapFile "testing_shap.tsv"
            ⟨fixedHeaderCols ++ XteEx.columns, teRows⟩,
          OutFile.featFile "feature_importance_vs_shap.tsv"
            (List.insertionSort featGE (zipFeatRows XtrEx.columns
              (libsEx.fitModel XtrEx [1, 0, 1, 0]).featureImportances
              (meanAbsPerFeature arrTrLit)))], none) ∧
      trRows.length = XtrEx.nrows ∧ teRows.length = XteEx.nrows ∧
      (∀ row ∈ trRows, row.baseline = 0) ∧
      (∀ row ∈ teRows, row.baseline = 0) :=
  C5_per_sample_table_layout libsEx trainDfEx testDfEx "training.txt"
    "testing.txt" "stem" (some "id") ["s1", "s2", "s3", "s4"] ["t1", "t2"]
    XtrEx XteEx [1, 0, 1, 0] none ⟨["no", "yes"]⟩ ⟨["no", "yes"]⟩ 0
    arrTrLit arrTeLit (by decide) (by decide) (by decide) (by decide)
    (by decide) (by decide) (by decide) (by decide) (by decide) (by decide)
    (by decide)

/-- C6: the aggregate table the run writes holds exactly one row per
training feature (its row count equals the training matrix's column count,
and under distinct column names every feature appears exactly once), is
sorted descending by the native importance score, and each row's
MeanAbsSHAP is the mean of the absolute class-1 attribution values of that
feature's column over the training samples only. -/
theorem C6_feature_importance_aggregate
    (libs : RunLibs) (trainDf testDf : DataFrame) (tn sn label : String)
    (sample : Option String) (trIds teIds : List String)
    (Xtr Xte : DataFrame) (yTr : List Nat) (yte : Option (List Nat))
    (le1 le2 : LabelEncoder) (b : Rat) (arrTr arrTe : Arr2)
    (h1 : process_data trainDf tn label sample ⟨[]⟩ true =
      .ok (trIds, Xtr, some yTr, le1))
    (h2 : process_data testDf sn label sample le1 false =
      .ok (teIds, Xte, yte, le2))
    (h3 : selectBaseline
      (libs.treeExplainer (libs.fitModel Xtr yTr)).expectedValue = some b)
    (h4 : shapArraySlice
      ((libs.treeExplainer (libs.fitModel Xtr yTr)).shapValues Xtr) = some arrTr)
    (h5 : shapArraySlice
      ((libs.treeExplainer (libs.fitModel Xtr yTr)).shapValues Xte) = some arrTe)
    (hne : arrTr ≠ [])
    (hwidth : ∀ r ∈ arrTr, r.length = Xtr.columns.length)
    (himps : (libs.fitModel Xtr yTr).featureImportances.length =
      Xtr.columns.length) :
    ∃ rows,
      rows = List.insertionSort featGE (zipFeatRows Xtr.columns
        (libs.fitModel Xtr yTr).featureImportances
        (meanAbsPerFeature arrTr)) ∧
      OutFile.featFile "feature_importance_vs_shap.tsv" rows ∈
        (mainRun libs trainDf tn testDf sn label sample).1 ∧
      rows.length = Xtr.columns.length ∧
      List.Sorted featGE rows ∧
      (rows.map (fun r => r.feature)).Perm Xtr.columns ∧
      (Xtr.columns.Nodup → ∀ f ∈ Xtr.columns,
        (rows.map (fun r => r.feature)).count f = 1) ∧
      (∀ r ∈ rows, ∃ j, Xtr.columns.get? j = some r.feature ∧
        r.meanAbsShap = (arrTr.map (fun row => |row.getD j 0|)).sum /
          ((arrTr.length : Nat) : Rat)) := by
  obtain ⟨r0, rest, rfl⟩ : ∃ r0 rest, arrTr = r0 :: rest := by
    cases arrTr with
    | nil => exact absurd rfl hne
    | cons a bs => exact ⟨a, bs, rfl⟩
  have hr0 : r0.length = Xtr.columns.length := hwidth r0 (by simp)
  have hmas : (meanAbsPerFeature (r0 :: rest)).length = Xtr.columns.length := by
    rw [meanAbsPerFeature_length, hr0]
  have hzlen : (zipFeatRows Xtr.columns
      (libs.fitModel Xtr yTr).featureImportances
      (meanAbsPerFeature (r0 :: rest))).length = Xtr.columns.length := by
    rw [zipFeatRows_length, himps, hmas, min_self, min_self]
  have hperm : (List.insertionSort featGE (zipFeatRows Xtr.columns
      (libs.fitModel Xtr yTr).featureImportances
      (meanAbsPerFeature (r0 :: rest)))).Perm
      (zipFeatRows Xtr.columns (libs.fitModel Xtr yTr).featureImportances
        (meanAbsPerFeature (r0 :: rest))) :=
    List.perm_insertionSort featGE _
  refine ⟨_, rfl, ?_, ?_, ?_, ?_, ?_, ?_⟩
  · rw [mainRun_eq libs trainDf testDf tn sn label sample trIds teIds Xtr Xte
      yTr yte le1 le2 b (r0 :: rest) arrTe h1 h2 h3 h4 h5]
    simp
  · rw [hperm.length_eq, hzlen]
  · exact List.sorted_insertionSort featGE _
  · have hmapeq : (zipFeatRows Xtr.columns
        (libs.fitModel Xtr yTr).featureImportances
        (meanAbsPerFeature (r0 :: rest))).map (fun r => r.feature) =
        Xtr.columns :=
      zipFeatRows_map_feature Xtr.columns _ _ himps hmas
    have := hperm.map (fun r => r.feature)
    rw [hmapeq] at this
    exact this
  · intro hnd f hf
    have hmapeq : (zipFeatRows Xtr.columns
        (libs.fitModel Xtr yTr).featureImportances
        (meanAbsPerFeature (r0 :: rest))).map (fun r => r.feature) =
        Xtr.columns :=
      zipFeatRows_map_feature Xtr.columns _ _ himps hmas
    have hpm := hperm.map (fun r => r.feature)
    rw [hmapeq] at hpm
    rw [hpm.count_eq f]
    exact List.count_eq_one_of_mem hnd hf
  · intro r hr
    have hrz : r ∈ zipFeatRows Xtr.columns
        (libs.fitModel Xtr yTr).featureImportances
        (meanAbsPerFeature (r0 :: rest)) := hperm.mem_iff.mp hr
    obtain ⟨j, hj1, _, hj3⟩ := zipFeatRows_mem _ _ _ r hrz
    obtain ⟨hjlt, _⟩ := List.get?_eq_some.mp hj1
    have hjr0 : j < r0.length := by rw [hr0]; exact hjlt
    rw [meanAbsPerFeature_get? r0 rest j hjr0] at hj3
    refine ⟨j, hj1, ?_⟩
    injection hj3 with hj3'
    exact hj3'.symm

theorem C6_witness :
    ∃ rows,
      rows = List.insertionSort featGE (zipFeatRows XtrEx.columns
        (libsEx.fitModel XtrEx [1, 0, 1, 0]).featureImportances
        (meanAbsPerFeature arrTrLit)) ∧
      OutFile.featFile "feature_importance_vs_shap.tsv" rows ∈
        (mainRun libsEx trainDfEx "training.txt" testDfEx "testing.txt" "stem"
          (some "id")).1 ∧
      rows.length = XtrEx.columns.length ∧
      List.Sorted featGE rows ∧
      (rows.map (fun r => r.feature)).Perm XtrEx.columns := by
  obtain ⟨rows, h0, h1, h2, h3, h4, _, _⟩ := C6_feature_importance_aggregate
    libsEx trainDfEx testDfEx "training.txt" "testing.txt" "stem" (some "id")
    ["s1", "s2", "s3", "s4"] ["t1", "t2"] XtrEx XteEx [1, 0, 1, 0] none
    ⟨["no", "yes"]⟩ ⟨["no", "yes"]⟩ 0 arrTrLit arrTeLit (by decide) (by decide)
    (by decide) (by decide) (by decide) (by decide) (by decide) (by decide)
  exact ⟨rows, h0, h1, h2, h3, h4⟩

/-- C8: a scoring table without the label column is processed successfully —
feature matrix = the table minus only the identifier column, no label
vector — and the run still completes, writing `testing_shap.tsv` with
exactly the same header as the training output (given matching feature
columns and well-shaped engine output). -/
theorem C8_scoring_table_without_label
    (libs : RunLibs) (trainDf testDf : DataFrame) (tn sn label : String)
    (sample : Option String) (trIds teIds : List String) (ycol : Col)
    (b : Rat) (arrTr arrTe : Arr2)
    (hids_tr : sampleIds trainDf sample = .ok trIds)
    (hy : trainDf.getCol label = some ycol)
    (hno : label ∉ testDf.columns)
    (hids_te : sampleIds testDf sample = .ok teIds)
    (hfeat : (testDf.drop sample.toList).columns =
      (trainDf.drop ([label] ++ sample.toList)).columns)
    (h3 : selectBaseline (libs.treeExplainer (libs.fitModel
      (encode_non_numeric (trainDf.drop ([label] ++ sample.toList)))
      (labelFitTransform ycol.asStrings))).expectedValue = some b)
    (h4 : shapArraySlice ((libs.treeExplainer (libs.fitModel
      (encode_non_numeric (trainDf.drop ([label] ++ sample.toList)))
      (labelFitTransform ycol.asStrings))).shapValues
      (encode_non_numeric (trainDf.drop ([label] ++ sample.toList)))) =
      some arrTr)
    (h5 : shapArraySlice ((libs.treeExplainer (libs.fitModel
      (encode_non_numeric (trainDf.drop ([label] ++ sample.toList)))
      (labelFitTransform ycol.asStrings))).shapValues
      (encode_non_numeric (testDf.drop sample.toList))) = some arrTe) :
    (∀ le : LabelEncoder, process_data testDf sn label sample le false =
      .ok (teIds, encode_non_numeric (testDf.drop sample.toList), none, le)) ∧
    (mainRun libs trainDf tn testDf sn label sample).2 = none ∧
    (∃ trRows teRows featRows hdr,
      (mainRun libs trainDf tn testDf sn label sample).1 =
        [OutFile.shapFile "training_shap.tsv" ⟨hdr, trRows⟩,
         OutFile.shapFile "testing_shap.tsv" ⟨hdr, teRows⟩,
         OutFile.featFile "feature_importance_vs_shap.tsv" featRows]) := by
  have h1 := process_data_train_eq trainDf tn label sample ⟨[]⟩ trIds ycol
    hids_tr hy
  have h2 := process_data_test_nolabel testDf sn label sample
    (LabelEncoder.fit ycol.asStrings) teIds hids_te hno
  have hrun := mainRun_eq libs trainDf testDf tn sn label sample trIds teIds
    (encode_non_numeric (trainDf.drop ([label] ++ sample.toList)))
    (encode_non_numeric (testDf.drop sample.toList))
    (labelFitTransform ycol.asStrings) none
    (LabelEncoder.fit ycol.asStrings) (LabelEncoder.fit ycol.asStrings)
    b arrTr arrTe h1 h2 h3 h4 h5
  have hcols : (encode_non_numeric (testDf.drop sample.toList)).columns =
      (encode_non_numeric (trainDf.drop ([label] ++ sample.toList))).columns := by
    rw [encode_columns, encode_columns, hfeat]
  refine ⟨?_, ?_, ?_⟩
  · intro le
    exact process_data_test_nolabel testDf sn label sample le teIds
      hids_te hno
  · rw [hrun]
  · refine ⟨buildRows trIds ((libs.fitModel
        (encode_non_numeric (trainDf.drop ([label] ++ sample.toList)))
        (labelFitTransform ycol.asStrings)).predictProbaPos
        (encode_non_numeric (trainDf.drop ([label] ++ sample.toList)))) b arrTr,
      buildRows teIds ((libs.fitModel
        (encode_non_numeric (trainDf.drop ([label] ++ sample.toList)))
        (labelFitTransform ycol.asStrings)).predictProbaPos
        (encode_non_numeric (testDf.drop sample.toList))) b arrTe,
      List.insertionSort featGE (zipFeatRows
        (encode_non_numeric (trainDf.drop ([label] ++ sample.toList))).columns
        (libs.fitModel
          (encode_non_numeric (trainDf.drop ([label] ++ sample.toList)))
          (labelFitTransform ycol.asStrings)).featureImportances
        (meanAbsPerFeature arrTr)),
      fixedHeaderCols ++
        (encode_non_numeric (trainDf.drop ([label] ++ sample.toList))).columns,
      ?_⟩
    rw [hrun, hcols]

theorem C8_witness :
    process_data testDfEx "testing.txt" "stem" (some "id") ⟨["no", "yes"]⟩
        false =
      .ok (["t1", "t2"], encode_non_numeric (testDfEx.drop ["id"]), none,
        ⟨["no", "yes"]⟩) ∧
    (mainRun libsEx trainDfEx "training.txt" testDfEx "testing.txt" "stem"
      (some "id")).2 = none ∧
    (∃ trRows teRows featRows hdr,
      (mainRun libsEx trainDfEx "training.txt" testDfEx "testing.txt" "stem"
        (some "id")).1 =
        [OutFile.shapFile "training_shap.tsv" ⟨hdr, trRows⟩,
         OutFile.shapFile "testing_shap.tsv" ⟨hdr, teRows⟩,
         OutFile.featFile "feature_importance_vs_shap.tsv" featRows]) := by
  have h := C8_scoring_table_without_label libsEx trainDfEx testDfEx
    "training.txt" "testing.txt" "stem" (some "id") ["s1", "s2", "s3", "s4"]
    ["t1", "t2"] (.strCol ["yes", "no", "yes", "no"]) 0 arrTrLit arrTeLit
    (by decide) (by decide) (by decide) (by decide) (by decide) (by decide)
    (by decide) (by decide)
  exact ⟨h.1 ⟨["no", "yes"]⟩, h.2.1, h.2.2⟩
